import Mathlib

/-!
Shallow embedding of the VISA-FRIENDLY-JobScrapper repository
(`src/job.js`, `src/db_manager.js`) and proofs about the claims of its
specification.

Conventions of the embedding:
* JavaScript strings are Lean `String`s; per-character work happens on
  `String.data : List Char`.  `toLowerCase` is modelled character-wise
  (ASCII case folding, the spec itself assumes ASCII-safe lower-casing).
* JavaScript `undefined`/`null` string fields are modelled as `""` where the
  source only ever tests them for truthiness (`""` and `undefined` are both
  falsy, so `a || b` behaves identically under this collapse); genuinely
  optional aggregates (`extensions`, `apply_options`, `jobs_results`) are
  `Option`s.
* Promise rejection / `throw` is `Except String`.
* The SQLite store backing the `jobs` table is modelled by the set of
  `job_hash` keys it holds (a `Finset String`); `INSERT OR IGNORE` with the
  `changes`-counter idiom becomes a conditional insert on that set.
* `this.stats` is threaded explicitly as a `RunStats` value.
-/

namespace JobScraper

/-- Word character in the sense of the JavaScript regex class `\w`
(`[A-Za-z0-9_]`), used for `\b` boundaries in `cleanCompanyName`. -/
def isWordChar (c : Char) : Bool :=
  c.isAlpha || c.isDigit || c == '_'

/-- Whitespace in the sense of the JavaScript regex class `\s` (restricted to
its ASCII members plus NBSP; the scraped names never contain the exotic
Unicode space separators). Used by `\s+` collapsing and by `trim`. -/
def isJsSpace (c : Char) : Bool :=
  c == ' ' || c == '\t' || c == '\n' || c == '\r' || c == '\x0b' ||
  c == '\x0c' || c == ' '

/-- ASCII lower-casing of a string, modelling `String.prototype.toLowerCase`
on the ASCII names this program handles. -/
def toLowerStr (s : String) : String :=
  String.mk (s.data.map Char.toLower)

/-- JavaScript `String.prototype.trim` on the character list. -/
def jsTrimList (l : List Char) : List Char :=
  ((l.dropWhile isJsSpace).reverse.dropWhile isJsSpace).reverse

/-- JavaScript `String.prototype.trim`. -/
def jsTrim (s : String) : String :=
  String.mk (jsTrimList s.data)

/-- Substring test: `needle` occurs contiguously inside `hay`.  Models
`String.prototype.includes` (note `hay.includes("")` is `true`). -/
def listIsInfix (needle hay : List Char) : Bool :=
  match hay with
  | [] => needle.isEmpty
  | _ :: t => needle.isPrefixOf hay || listIsInfix needle t

/-- JavaScript `s.includes(sub)`. -/
def includesStr (s sub : String) : Bool :=
  listIsInfix sub.data s.data

/-- JavaScript `a || b` for strings where only `""` plays the role of a falsy
value (see the module conventions above). -/
def jsOr (a b : String) : String :=
  if a == ("") then b else a

/-! ### `cleanCompanyName` (src/job.js lines 144-150)

The first `replace` is the global regex
`\b(inc\.?|llc\.?|corp\.?|corporation|company|co\.?|ltd\.?|limited|services|group|technologies|tech|systems|solutions)\b`
with replacement `''`.  The embedding reproduces the engine behaviour for
this particular pattern: scanning left to right over the original string,
at every position with a word boundary before it the alternatives are tried
in order; an alternative `tok\.?` first tries to consume `tok.` (greedy
`\.?`) and accepts only if a `\b` follows (after the non-word `.` that means
the next character must be a word character), then backtracks to `tok`
alone (after which `\b` means the next character, if any, is a non-word
character).  A successful match is deleted and scanning resumes after it. -/

/-- The alternation of the suffix-stripping regex, in source order; the flag
records the optional trailing `\.?`. -/
def suffixAlts : List (List Char × Bool) :=
  [(("inc").data, true), (("llc").data, true), (("corp").data, true),
   (("corporation").data, false), (("company").data, false),
   (("co").data, true), (("ltd").data, true), (("limited").data, false),
   (("services").data, false), (("group").data, false),
   (("technologies").data, false), (("tech").data, false),
   (("systems").data, false), (("solutions").data, false)]

/-- Trailing `\b` check when the last consumed character was a word character
(the bare token case): the next character must be absent or non-word. -/
def boundaryAfterPlain : List Char → Bool
  | [] => true
  | c :: _ => !isWordChar c

/-- Trailing `\b` check when the last consumed character was the non-word
`.` (the `tok.` case): the next character must be a word character. -/
def boundaryAfterDot : List Char → Bool
  | [] => false
  | c :: _ => isWordChar c

/-- Try one alternative of the suffix regex at the head of `l`, returning how
many characters it consumes. Greedy `\.?` first, then backtracking. -/
def tryAlt (l : List Char) (alt : List Char × Bool) : Option Nat :=
  let tok := alt.1
  if alt.2 && (tok ++ ['.']).isPrefixOf l &&
      boundaryAfterDot (l.drop (tok.length + 1)) then
    some (tok.length + 1)
  else if tok.isPrefixOf l && boundaryAfterPlain (l.drop tok.length) then
    some tok.length
  else
    none

/-- Try the whole alternation at the head of `l` (first alternative that
matches wins, as in the regex engine). -/
def matchAlt (l : List Char) : Option Nat :=
  suffixAlts.findSome? (tryAlt l)

/-- Scanner for the global suffix-deleting `replace`.  `prev` is the original
character immediately before the scan position (for the leading `\b`).  Every
step consumes at least one character, so `fuel := input length` never runs
out when entered through `removeSuffixes`. -/
def removeSuffixesGo : Nat → Option Char → List Char → List Char
  | 0, _, l => l
  | _ + 1, _, [] => []
  | fuel + 1, prev, c :: rest =>
    let boundaryBefore :=
      match prev with
      | none => true
      | some p => !isWordChar p
    if boundaryBefore then
      match matchAlt (c :: rest) with
      | some n =>
        removeSuffixesGo fuel (((c :: rest).take n).getLast?) ((c :: rest).drop n)
      | none => c :: removeSuffixesGo fuel (some c) rest
    else
      c :: removeSuffixesGo fuel (some c) rest

/-- First `replace` of `cleanCompanyName`: delete the legal-suffix tokens as
whole regex words. -/
def removeSuffixes (l : List Char) : List Char :=
  removeSuffixesGo l.length none l

/-- Second `replace` of `cleanCompanyName`: `/[,\.]/g` with `''` — commas and
periods are deleted outright (not replaced by spaces). -/
def removePunct (l : List Char) : List Char :=
  l.filter (fun c => !(c == ',' || c == '.'))

/-- Third `replace` of `cleanCompanyName`: `/\s+/g` with `' '` — every
maximal run of whitespace becomes a single space.  The flag records whether
the previous character belonged to a whitespace run. -/
def collapseWsAux : Bool → List Char → List Char
  | _, [] => []
  | prevSpace, c :: rest =>
    if isJsSpace c then
      if prevSpace then collapseWsAux true rest
      else ' ' :: collapseWsAux true rest
    else
      c :: collapseWsAux false rest

/-- Clean company names for better matching (src/job.js `cleanCompanyName`):
suffix deletion, punctuation deletion, whitespace collapsing, final trim. -/
def cleanCompanyName (s : String) : String :=
  String.mk (jsTrimList (collapseWsAux false (removePunct (removeSuffixes s.data))))

/-! ### `isSubstantialMatch` and `isH1BCompany` (src/job.js lines 128-162) -/

/-- Check if two company names have substantial overlap (src/job.js
`isSubstantialMatch`).  The source computes
`commonWords.length / Math.min(...) >= 0.6` in floating point; for the small
exact integer operands arising from word counts this comparison coincides
with the rational comparison `5 * common >= 3 * min`, which is how it is
embedded. -/
def isSubstantialMatch (name1 name2 : String) : Bool :=
  let words1 := (name1.data.splitOn ' ').filter (fun w => decide (2 < w.length))
  let words2 := (name2.data.splitOn ' ').filter (fun w => decide (2 < w.length))
  if words1.isEmpty || words2.isEmpty then false
  else
    let commonWords := words1.filter (fun w => words2.contains w)
    decide (3 * min words1.length words2.length ≤ 5 * commonWords.length)

/-- Check if company is in the H1B list (src/job.js `isH1BCompany`).  The
`Set` of loaded reference names is modelled as the list `h1bCompanies`;
`has` is exact membership and the `for...of` scan returning on first hit is
the boolean `any`. -/
def isH1BCompany (h1bCompanies : List String) (companyName : String) : Bool :=
  if companyName == ("") then false
  else
    let normalizedName := jsTrim (toLowerStr companyName)
    if h1bCompanies.contains normalizedName then true
    else
      h1bCompanies.any (fun h1bCompany =>
        let cleanJobCompany := cleanCompanyName normalizedName
        let cleanH1bCompany := cleanCompanyName h1bCompany
        cleanJobCompany == cleanH1bCompany ||
        includesStr cleanJobCompany cleanH1bCompany ||
        includesStr cleanH1bCompany cleanJobCompany ||
        isSubstantialMatch cleanJobCompany cleanH1bCompany)

example : cleanCompanyName ("foo.bar") = ("foobar") := by decide
example : cleanCompanyName ("acme, inc.") = ("acme") := by decide
example : cleanCompanyName ("google llc") = ("google") := by decide
example : cleanCompanyName ("inc") = ("") := by decide
example : isH1BCompany [("google")] ("Google LLC") = true := by decide
example : isH1BCompany [("google")] ("Totally Unrelated Startup") = false := by decide

/-! ### JobRecordBuilder pieces (src/job.js lines 165-195 and 279-296) -/

/-- One `(title, link)` entry of `apply_options`. -/
structure ApplyOption where
  title : String
  link : String
deriving DecidableEq

/-- JavaScript `array.join(' ')`. -/
def joinWithSpace : List String → String
  | [] => ("")
  | [s] => s
  | s :: rest => s ++ (" ") ++ joinWithSpace rest

/-- Extract work setting from job description or extensions (src/job.js
`extractWorkSetting`).  The source returns the literal strings
`'Hybrid' | 'Remote' | 'Onsite' | 'Not Specified'`. -/
def extractWorkSetting (description : String) (extensions : Option (List String)) : String :=
  let text := toLowerStr (description ++ (" ") ++ joinWithSpace (extensions.getD []))
  if includesStr text ("remote") && (includesStr text ("onsite") || includesStr text ("office")) then
    ("Hybrid")
  else if includesStr text ("remote") then ("Remote")
  else if includesStr text ("onsite") || includesStr text ("office") ||
      includesStr text ("on-site") then ("Onsite")
  else ("Not Specified")

/-- The literal substrings scanned for by `extractJobType`, in source order. -/
def jobTypes : List String :=
  [("full-time"), ("part-time"), ("contract"), ("internship"), ("temporary")]

/-- JavaScript `type.charAt(0).toUpperCase() + type.slice(1)`. -/
def capitalizeFirst (s : String) : String :=
  match s.data with
  | [] => s
  | c :: rest => String.mk (c.toUpper :: rest)

/-- Extract job type from extensions (src/job.js `extractJobType`): the first
job-type keyword found in the first extension containing one, capitalized;
`''` when `extensions` is absent or nothing matches. -/
def extractJobType (extensions : Option (List String)) : String :=
  match extensions with
  | none => ("")
  | some exts =>
    match exts.findSome? (fun ext =>
        let lowerExt := toLowerStr ext
        jobTypes.findSome? (fun t =>
          if includesStr lowerExt t then some (capitalizeFirst t) else none)) with
    | some r => r
    | none => ("")

/-- The ATS priority substrings of `getATSApplyLink`, in source order. -/
def atsPriorities : List String :=
  [("career"), ("jobs"), ("workday"), ("greenhouse"), ("lever"), ("bamboohr")]

/-- Select a single application link by priority (src/job.js
`getATSApplyLink`): first option whose title or link contains the highest
applicable priority substring, else the first option, else `''`. -/
def getATSApplyLink (applyOptions : Option (List ApplyOption)) : String :=
  match applyOptions with
  | none => ("")
  | some [] => ("")
  | some (first :: others) =>
    let opts := first :: others
    match atsPriorities.findSome? (fun priority =>
        (opts.find? (fun option =>
          includesStr (toLowerStr option.title) priority ||
          includesStr (toLowerStr option.link) priority)).map ApplyOption.link) with
    | some link => link
    | none => first.link

/-- One raw item of a SerpAPI `jobs_results` page.  String fields default to
`""` when absent (see the module conventions); `posted_at` and
`schedule_type` stand for `detected_extensions?.posted_at` and
`detected_extensions?.schedule_type`. -/
structure RawJob where
  company_name : String
  title : String
  location : String
  description : String
  posted_at : String
  schedule_type : String
  extensions : Option (List String)
  apply_options : Option (List ApplyOption)
deriving DecidableEq

/-- One processed job record, as pushed onto `allJobs` in `processJobs` and
later persisted. -/
structure ProcessedJob where
  company_name : String
  job_title : String
  posting_time : String
  job_location : String
  job_type : String
  job_description : String
  work_setting : String
  ats_apply_link : String
  scraped_at : String
deriving DecidableEq

/-- Build the processed record for one raw item (the object literal inside
`processJobs`, src/job.js lines 240-251).  `now` stands for
`new Date().toISOString()` at build time. -/
def buildJob (now : String) (job : RawJob) : ProcessedJob :=
  { company_name := job.company_name
    job_title := job.title
    posting_time :=
      jsOr job.posted_at
        (jsOr (match job.extensions with
               | some (e :: _) => e
               | _ => ("")) (""))
    job_location := job.location
    job_type := jsOr job.schedule_type (jsOr (extractJobType job.extensions) (""))
    job_description := job.description
    work_setting := extractWorkSetting job.description job.extensions
    ats_apply_link := getATSApplyLink job.apply_options
    scraped_at := now }

example : extractWorkSetting ("Remote position, occasional office visits") none = ("Hybrid") := by
  decide
example : extractWorkSetting ("Fully remote role") none = ("Remote") := by decide
example : extractWorkSetting ("On-site only") none = ("Onsite") := by decide
example : extractWorkSetting ("Flexible arrangement") none = ("Not Specified") := by decide

/-! ### MD5 (the digest behind `generateJobHash`, src/db_manager.js 103-106)

`crypto.createHash('md5').update(hashString).digest('hex')` hashes the
UTF-8 bytes of the string and prints the 16-byte digest as lowercase hex.
The algorithm is embedded over `Nat` with explicit reduction modulo `2^32`. -/

/-- UTF-8 encoding of one code point. -/
def utf8EncodeChar (n : Nat) : List Nat :=
  if n < 128 then [n]
  else if n < 2048 then [192 + n / 64, 128 + n % 64]
  else if n < 65536 then [224 + n / 4096, 128 + (n / 64) % 64, 128 + n % 64]
  else [240 + n / 262144, 128 + (n / 4096) % 64, 128 + (n / 64) % 64, 128 + n % 64]

/-- UTF-8 bytes of a string (Node's default encoding for `hash.update`). -/
def utf8Encode (s : String) : List Nat :=
  (s.data.map (fun c => utf8EncodeChar c.toNat)).flatten

/-- Addition modulo `2^32`. -/
def add32 (a b : Nat) : Nat := (a + b) % 4294967296

/-- Bitwise complement within 32 bits. -/
def not32 (a : Nat) : Nat := a ^^^ 4294967295

/-- Left rotation of a 32-bit value. -/
def rotl32 (x n : Nat) : Nat := ((x <<< n) % 4294967296) ||| (x >>> (32 - n))

/-- MD5 round function for rounds 0-15. -/
def md5F (b c d : Nat) : Nat := (b &&& c) ||| (not32 b &&& d)

/-- MD5 round function for rounds 16-31. -/
def md5G (b c d : Nat) : Nat := (d &&& b) ||| (not32 d &&& c)

/-- MD5 round function for rounds 32-47. -/
def md5H (b c d : Nat) : Nat := b ^^^ c ^^^ d

/-- MD5 round function for rounds 48-63. -/
def md5I (b c d : Nat) : Nat := c ^^^ (b ||| not32 d)

/-- The 64 MD5 sine-derived constants. -/
def md5K : List Nat :=
  [0xd76aa478, 0xe8c7b756, 0x242070db, 0xc1bdceee,
   0xf57c0faf, 0x4787c62a, 0xa8304613, 0xfd469501,
   0x698098d8, 0x8b44f7af, 0xffff5bb1, 0x895cd7be,
   0x6b901122, 0xfd987193, 0xa679438e, 0x49b40821,
   0xf61e2562, 0xc040b340, 0x265e5a51, 0xe9b6c7aa,
   0xd62f105d, 0x02441453, 0xd8a1e681, 0xe7d3fbc8,
   0x21e1cde6, 0xc33707d6, 0xf4d50d87, 0x455a14ed,
   0xa9e3e905, 0xfcefa3f8, 0x676f02d9, 0x8d2a4c8a,
   0xfffa3942, 0x8771f681, 0x6d9d6122, 0xfde5380c,
   0xa4beea44, 0x4bdecfa9, 0xf6bb4b60, 0xbebfbc70,
   0x289b7ec6, 0xeaa127fa, 0xd4ef3085, 0x04881d05,
   0xd9d4d039, 0xe6db99e5, 0x1fa27cf8, 0xc4ac5665,
   0xf4292244, 0x432aff97, 0xab9423a7, 0xfc93a039,
   0x655b59c3, 0x8f0ccc92, 0xffeff47d, 0x85845dd1,
   0x6fa87e4f, 0xfe2ce6e0, 0xa3014314, 0x4e0811a1,
   0xf7537e82, 0xbd3af235, 0x2ad7d2bb, 0xeb86d391]

/-- The 64 MD5 per-round shift amounts. -/
def md5S : List Nat :=
  [7, 12, 17, 22, 7, 12, 17, 22, 7, 12, 17, 22, 7, 12, 17, 22,
   5, 9, 14, 20, 5, 9, 14, 20, 5, 9, 14, 20, 5, 9, 14, 20,
   4, 11, 16, 23, 4, 11, 16, 23, 4, 11, 16, 23, 4, 11, 16, 23,
   6, 10, 15, 21, 6, 10, 15, 21, 6, 10, 15, 21, 6, 10, 15, 21]

/-- Little-endian 8-byte encoding of the bit length. -/
def le64 (n : Nat) : List Nat :=
  (List.range 8).map (fun i => (n >>> (8 * i)) % 256)

/-- MD5 padding: `0x80`, zeros to 56 mod 64, then the 64-bit bit count. -/
def md5Pad (msg : List Nat) : List Nat :=
  let padLen := (119 - msg.length % 64) % 64
  msg ++ [128] ++ List.replicate padLen 0 ++ le64 ((msg.length * 8) % (2 ^ 64))

/-- Little-endian 32-bit word `j` of a 64-byte block. -/
def bytesToWord (block : List Nat) (j : Nat) : Nat :=
  block.getD (4 * j) 0 + 256 * block.getD (4 * j + 1) 0 +
    65536 * block.getD (4 * j + 2) 0 + 16777216 * block.getD (4 * j + 3) 0

/-- One of the 64 MD5 rounds on the register quadruple. -/
def md5Round (block : List Nat) (st : Nat × Nat × Nat × Nat) (i : Nat) :
    Nat × Nat × Nat × Nat :=
  let (a, b, c, d) := st
  let fg : Nat × Nat :=
    if i < 16 then (md5F b c d, i)
    else if i < 32 then (md5G b c d, (5 * i + 1) % 16)
    else if i < 48 then (md5H b c d, (3 * i + 5) % 16)
    else (md5I b c d, (7 * i) % 16)
  let f2 := add32 (add32 (add32 fg.1 a) (md5K.getD i 0)) (bytesToWord block fg.2)
  (d, add32 b (rotl32 f2 (md5S.getD i 0)), b, c)

/-- Compress one 64-byte block into the running state. -/
def md5Block (st : Nat × Nat × Nat × Nat) (block : List Nat) :
    Nat × Nat × Nat × Nat :=
  let r := (List.range 64).foldl (md5Round block) st
  (add32 st.1 r.1, add32 st.2.1 r.2.1, add32 st.2.2.1 r.2.2.1, add32 st.2.2.2 r.2.2.2)

/-- Split the padded message into 64-byte blocks.  The fuel is the message
length, which bounds the number of blocks. -/
def toBlocks : Nat → List Nat → List (List Nat)
  | 0, _ => []
  | _, [] => []
  | fuel + 1, l => l.take 64 :: toBlocks fuel (l.drop 64)

/-- Little-endian byte decomposition of one 32-bit register. -/
def le32 (n : Nat) : List Nat :=
  [n % 256, (n >>> 8) % 256, (n >>> 16) % 256, (n >>> 24) % 256]

/-- Lowercase hex digit. -/
def hexDigit (n : Nat) : Char :=
  if n < 10 then Char.ofNat (48 + n) else Char.ofNat (87 + n)

/-- Two lowercase hex digits of one byte. -/
def byteToHex (b : Nat) : List Char :=
  [hexDigit (b / 16), hexDigit (b % 16)]

/-- The 16 MD5 digest bytes of a byte sequence. -/
def md5Bytes (msg : List Nat) : List Nat :=
  let padded := md5Pad msg
  let final :=
    (toBlocks padded.length padded).foldl md5Block
      (0x67452301, 0xefcdab89, 0x98badcfe, 0x10325476)
  le32 final.1 ++ le32 final.2.1 ++ le32 final.2.2.1 ++ le32 final.2.2.2

/-- Node `crypto.createHash('md5').update(s).digest('hex')`. -/
def md5Hex (s : String) : String :=
  String.mk (((md5Bytes (utf8Encode s)).map byteToHex).flatten)

/-- Fingerprint of a job record (src/db_manager.js `generateJobHash`): the
MD5 hex digest of the `-`-delimited concatenation of company name, job
title, job location and posting time. -/
def generateJobHash (job : ProcessedJob) : String :=
  md5Hex (job.company_name ++ ("-") ++ job.job_title ++ ("-") ++
    job.job_location ++ ("-") ++ job.posting_time)

set_option maxRecDepth 8192 in
example : md5Hex ("") = ("d41d8cd98f00b204e9800998ecf8427e") := by decide
set_option maxRecDepth 8192 in
example : md5Hex ("abc") = ("900150983cd24fb0d6963f7d28e17f72") := by decide

/-! ### Deduplicating insert (src/db_manager.js `insertJobs`, lines 147-204)

The `jobs` table is modelled by its set of `job_hash` keys.  One
`INSERT OR IGNORE` either adds the key (`this.changes > 0`, counted as
inserted) or leaves the table unchanged (counted as duplicated); the batch
runs inside a single transaction, so the whole fold is the atomic effect. -/

/-- The per-row loop of `insertJobs` with its two mutable counters. -/
def insertJobsGo (store : Finset String) (inserted duplicated : Nat) :
    List ProcessedJob → Finset String × Nat × Nat
  | [] => (store, inserted, duplicated)
  | job :: rest =>
    let jobHash := generateJobHash job
    if jobHash ∈ store then insertJobsGo store inserted (duplicated + 1) rest
    else insertJobsGo (insert jobHash store) (inserted + 1) duplicated rest

/-- Insert jobs into the database with deduplication (src/db_manager.js
`insertJobs`): returns the updated key set together with
`{ inserted, duplicated }`. -/
def insertJobs (store : Finset String) (jobs : List ProcessedJob) :
    Finset String × Nat × Nat :=
  if jobs.isEmpty then (store, 0, 0)
  else insertJobsGo store 0 0 jobs

/-! ### FetchPipeline (src/job.js `fetchJobs` / `processJobs` / `scrapeJobs`)

The SerpAPI call is a parameter `fetch : Nat → Except String Page` from the
requested start index to the outcome of the HTTP request.  Alongside the
source-visible outputs, the pipeline returns the ghost list of start indices
at which `fetchJobs` was invoked, so that theorems can speak about which
upstream calls a run attempts. -/

/-- The scraping statistics object `this.stats`. -/
structure RunStats where
  jobsScraped : Nat
  jobsFiltered : Nat
  jobsInserted : Nat
  jobsDuplicated : Nat
  apiCallsMade : Nat
  status : String
  errorMessage : Option String
deriving DecidableEq

/-- The freshly reset statistics at the start of `scrapeJobs`. -/
def initStats : RunStats :=
  { jobsScraped := 0, jobsFiltered := 0, jobsInserted := 0, jobsDuplicated := 0
    apiCallsMade := 0, status := ("success"), errorMessage := none }

/-- One SerpAPI response body; `jobs_results` may be absent. -/
structure Page where
  jobs_results : Option (List RawJob)
deriving DecidableEq

/-- Fetch jobs from SerpAPI (src/job.js `fetchJobs`, lines 197-218).  On
success `apiCallsMade` is incremented *after* the awaited call returns; on
failure the catch block records the error status and message and re-throws
without touching the counter. -/
def fetchJobs (fetch : Nat → Except String Page) (startIndex : Nat)
    (stats : RunStats) : Except String Page × RunStats :=
  match fetch startIndex with
  | Except.ok page =>
    (Except.ok page, { stats with apiCallsMade := stats.apiCallsMade + 1 })
  | Except.error e =>
    (Except.error e, { stats with status := ("error"), errorMessage := some e })

/-- The inner `for (const job of data.jobs_results)` loop of `processJobs`:
non-matching companies are skipped entirely; a match bumps `jobsFiltered`
and appends the built record to `allJobs`. -/
def processPage (companies : List String) (now : String) (stats : RunStats)
    (acc : List ProcessedJob) : List RawJob → RunStats × List ProcessedJob
  | [] => (stats, acc)
  | job :: rest =>
    if isH1BCompany companies job.company_name then
      processPage companies now
        { stats with jobsFiltered := stats.jobsFiltered + 1 }
        (acc ++ [buildJob now job]) rest
    else
      processPage companies now stats acc rest

/-- The page loop of `processJobs` (src/job.js lines 221-277), by recursion
on the remaining page budget.  A page with absent or empty `jobs_results`
breaks out of the loop; a fetch failure propagates at once.  The third
component is the ghost trace of attempted start indices. -/
def processJobsGo (companies : List String) (fetch : Nat → Except String Page)
    (now : String) :
    Nat → Nat → RunStats → List ProcessedJob →
    Except String (List ProcessedJob) × RunStats × List Nat
  | 0, _, stats, acc => (Except.ok acc, stats, [])
  | pagesLeft + 1, startIndex, stats, acc =>
    match fetchJobs fetch startIndex stats with
    | (Except.error e, stats1) => (Except.error e, stats1, [startIndex])
    | (Except.ok page, stats1) =>
      match page.jobs_results with
      | none => (Except.ok acc, stats1, [startIndex])
      | some [] => (Except.ok acc, stats1, [startIndex])
      | some (job :: rest) =>
        let stats2 :=
          { stats1 with jobsScraped := stats1.jobsScraped + (job :: rest).length }
        let r1 := processPage companies now stats2 acc (job :: rest)
        let r2 := processJobsGo companies fetch now pagesLeft (startIndex + 10) r1.1 r1.2
        (r2.1, r2.2.1, startIndex :: r2.2.2)

/-- The fixed page budget (`const maxPages = 3`). -/
def maxPages : Nat := 3

/-- Process and filter jobs (src/job.js `processJobs`): up to `maxPages`
pages starting at offset 0, stepping by 10. -/
def processJobs (companies : List String) (fetch : Nat → Except String Page)
    (now : String) (stats : RunStats) :
    Except String (List ProcessedJob) × RunStats × List Nat :=
  processJobsGo companies fetch now maxPages 0 stats []

/-- Save jobs to the database (src/job.js `saveJobs`): an empty list returns
without writing; otherwise the batch insert fills `jobsInserted` and
`jobsDuplicated`.  The pure store never fails here, and the CSV backup has
no observable effect on the modelled state. -/
def saveJobs (store : Finset String) (stats : RunStats)
    (jobs : List ProcessedJob) : Finset String × RunStats :=
  if jobs.isEmpty then (store, stats)
  else
    let r := insertJobs store jobs
    (r.1, { stats with jobsInserted := r.2.1, jobsDuplicated := r.2.2 })

/-- Main scraping function (src/job.js `scrapeJobs`, lines 358-399).
`logRun` is `dbManager.logScrapingRun`.  On the happy path the run log is
written once; if that write fails, control transfers to the catch block,
which marks the stats as failed and *awaits another log write with no inner
try/catch* — so a failure of that secondary write replaces the error being
handled, and only if it succeeds is the handled error re-thrown. -/
def scrapeJobs (companies : List String) (fetch : Nat → Except String Page)
    (now : String) (store : Finset String)
    (logRun : RunStats → Except String Nat) :
    Except String (List ProcessedJob) × RunStats × Finset String :=
  match processJobs companies fetch now initStats with
  | (Except.ok jobs, stats1, _) =>
    let r := saveJobs store stats1 jobs
    (match logRun r.2 with
     | Except.ok _ => (Except.ok jobs, r.2, r.1)
     | Except.error e2 =>
       let stats3 := { r.2 with status := ("error"), errorMessage := some e2 }
       match logRun stats3 with
       | Except.ok _ => (Except.error e2, stats3, r.1)
       | Except.error e3 => (Except.error e3, stats3, r.1))
  | (Except.error e, stats1, _) =>
    let stats2 := { stats1 with status := ("error"), errorMessage := some e }
    match logRun stats2 with
    | Except.ok _ => (Except.error e, stats2, store)
    | Except.error e2 => (Except.error e2, stats2, store)

/-! ### Reference-set loading (src/job.js `loadH1BCompanies` / `initialize`)

`getH1BCompanies` (the database side) is a list of stored normalized names;
the CSV side is a list of parsed rows, `none` standing for an unreadable
file (stream error).  The run's own `initialize` is embedded as
`initScraper`. -/

/-- One parsed CSV row: header/value pairs in column order. -/
structure CsvRow where
  fields : List (String × String)
deriving DecidableEq

/-- JavaScript `row[key]`, with `""` for an absent column. -/
def rowLookup (row : CsvRow) (key : String) : String :=
  match row.fields.find? (fun kv => kv.1 == key) with
  | some kv => kv.2
  | none => ("")

/-- JavaScript `Object.values(row)[0]`, with `""` for an empty row. -/
def firstValue (row : CsvRow) : String :=
  match row.fields with
  | kv :: _ => kv.2
  | [] => ("")

/-- The header-alias chain picking the raw company name out of a row. -/
def rawCompanyName (row : CsvRow) : String :=
  jsOr (rowLookup row ("EMPLOYER_NAME"))
    (jsOr (rowLookup row ("employer_name"))
      (jsOr (rowLookup row ("company_name"))
        (jsOr (rowLookup row ("Company Name"))
          (jsOr (rowLookup row ("name")) (firstValue row)))))

/-- Quote character for the stripping regex `/^["']|["']$/g`. -/
def isQuoteChar (c : Char) : Bool :=
  c == '"' || c.toNat == 39

/-- JavaScript `name.replace(/^["']|["']$/g, '')`: at most one leading and
one remaining trailing quote character are removed. -/
def stripOuterQuotes (l : List Char) : List Char :=
  let l1 :=
    match l with
    | c :: rest => if isQuoteChar c then rest else l
    | [] => []
  match l1.getLast? with
  | some c => if isQuoteChar c then l1.dropLast else l1
  | none => l1

/-- The `.on('data', ...)` handler applied to every row: unquote, trim,
lower-case, keep only non-empty results. -/
def parseCsvCompanies (rows : List CsvRow) : List String :=
  rows.foldr
    (fun row acc =>
      let companyName := rawCompanyName row
      if companyName == ("") then acc
      else
        let cleaned := jsTrim (String.mk (stripOuterQuotes companyName.data))
        if cleaned == ("") then acc else toLowerStr cleaned :: acc)
    []

/-- Load H1B companies (src/job.js `loadH1BCompanies`, lines 74-116): prefer
the database set when non-empty, otherwise parse the CSV (`new Set(...)` is
modelled by `dedup`); an unreadable CSV stream rejects.  There is no
emptiness check anywhere: zero usable rows resolve successfully with an
empty list. -/
def loadH1BCompanies (dbCompanies : List String)
    (csvFile : Option (List CsvRow)) : Except String (List String) :=
  if dbCompanies.length > 0 then Except.ok dbCompanies
  else
    match csvFile with
    | none => Except.error ("CSV read error")
    | some rows => Except.ok (parseCsvCompanies rows).dedup

/-- Initialize database and load H1B companies (src/job.js `initialize`,
lines 52-71).  The `if (this.h1bCompanies.size > 0)` guard only decides
whether the loaded names are copied into the database — a write with no
effect on the set the run filters with — so initialization succeeds with
whatever set was loaded, empty or not. -/
def initScraper (dbCompanies : List String) (csvFile : Option (List CsvRow)) :
    Except String (List String) :=
  match loadH1BCompanies dbCompanies csvFile with
  | Except.error e => Except.error e
  | Except.ok companies => Except.ok companies

/-! ## Supporting lemmas -/

/-- The empty string is a substring of everything (`hay.includes('')`). -/
theorem listIsInfix_nil_left (l : List Char) : listIsInfix [] l = true := by
  cases l <;> simp [listIsInfix, List.isPrefixOf]

/-- String version of `listIsInfix_nil_left`. -/
theorem includesStr_empty (s : String) : includesStr s ("") = true := by
  have h : ("" : String).data = [] := rfl
  unfold includesStr
  rw [h]
  exact listIsInfix_nil_left _

/-! ## C5 — the fingerprint is a pure function of four fields -/

/-- C5: for every two `ProcessedJob`s agreeing on company name, job title,
location and posting time, `generateJobHash` (the MD5 hex digest of the
`-`-delimited concatenation of exactly those four fields) is byte-for-byte
identical — independent of every other record field, and of when it is
computed, since the embedding is a pure function of the record. -/
theorem c5_fingerprint_pure (j1 j2 : ProcessedJob)
    (h1 : j1.company_name = j2.company_name)
    (h2 : j1.job_title = j2.job_title)
    (h3 : j1.job_location = j2.job_location)
    (h4 : j1.posting_time = j2.posting_time) :
    generateJobHash j1 = generateJobHash j2 := by
  unfold generateJobHash
  rw [h1, h2, h3, h4]

/-- A concrete record used by the C5 witness. -/
def c5JobA : ProcessedJob :=
  { company_name := ("Acme"), job_title := ("Data Engineer")
    posting_time := ("3 days ago"), job_location := ("NYC")
    job_type := ("Full-time"), job_description := ("build pipelines")
    work_setting := ("Remote"), ats_apply_link := ("https://a.example")
    scraped_at := ("2024-01-01T00:00:00.000Z") }

/-- A second record with the same four key fields but different type,
description, work setting, link and scrape timestamp. -/
def c5JobB : ProcessedJob :=
  { company_name := ("Acme"), job_title := ("Data Engineer")
    posting_time := ("3 days ago"), job_location := ("NYC")
    job_type := ("Contract"), job_description := ("maintain warehouses")
    work_setting := ("Onsite"), ats_apply_link := ("https://b.example")
    scraped_at := ("2024-02-02T12:34:56.000Z") }

/-- C5 witness: the two concrete records above differ in five fields yet get
the same fingerprint. -/
theorem c5_fingerprint_pure_witness :
    generateJobHash c5JobA = generateJobHash c5JobB :=
  c5_fingerprint_pure c5JobA c5JobB rfl rfl rfl rfl

/-! ## C9 — the work-setting classifier -/

/-- C9: on the lower-cased concatenation of description and extensions, the
classifier returns `Hybrid` when the text contains `remote` together with
`onsite` or `office`; otherwise `Remote` when it contains `remote`;
otherwise `Onsite` when it contains `onsite`, `office` or `on-site`;
otherwise `Not Specified` — and the `Hybrid` test is decided before the
single-keyword branches, so a text with both kinds of keywords is never
classified `Remote` or `Onsite`. -/
theorem c9_workSetting_classifier (d : String) (exts : Option (List String)) :
    (let text := toLowerStr (d ++ (" ") ++ joinWithSpace (exts.getD []))
     ((includesStr text ("remote") &&
        (includesStr text ("onsite") || includesStr text ("office"))) = true →
       extractWorkSetting d exts = ("Hybrid")) ∧
     (includesStr text ("remote") = true → includesStr text ("onsite") = false →
       includesStr text ("office") = false →
       extractWorkSetting d exts = ("Remote")) ∧
     (includesStr text ("remote") = false →
       (includesStr text ("onsite") || includesStr text ("office") ||
         includesStr text ("on-site")) = true →
       extractWorkSetting d exts = ("Onsite")) ∧
     (includesStr text ("remote") = false → includesStr text ("onsite") = false →
       includesStr text ("office") = false → includesStr text ("on-site") = false →
       extractWorkSetting d exts = ("Not Specified"))) := by
  refine ⟨?_, ?_, ?_, ?_⟩ <;> intros <;> simp_all [extractWorkSetting]

/-- C9 witness: the spec's own scenario — a description mentioning both
`remote` and `office` is classified `Hybrid`. -/
theorem c9_workSetting_classifier_witness :
    extractWorkSetting ("Remote position, occasional office visits") none = ("Hybrid") :=
  (c9_workSetting_classifier ("Remote position, occasional office visits") none).1
    (by decide)

/-! ## C10 — a reference entry that cleans to the empty string matches all -/

/-- C10: if some entry of the loaded reference list heavy-cleans to the
empty string (for instance an entry consisting only of legal-suffix tokens
and punctuation), then `isH1BCompany` accepts every non-empty company name:
the cleaned reference string `""` is a substring of every cleaned input, so
the containment disjunct of the fuzzy scan always fires. -/
theorem c10_degenerate_reference (companies : List String) (name c : String)
    (hname : ¬ name = ("")) (hc : c ∈ companies)
    (hclean : cleanCompanyName c = ("")) :
    isH1BCompany companies name = true := by
  unfold isH1BCompany
  have h1 : (name == ("")) = false := by
    simp only [beq_eq_false_iff_ne, ne_eq]
    exact hname
  rw [if_neg (by simp [h1])]
  by_cases hcon : companies.contains (jsTrim (toLowerStr name))
  · simp only [hcon, if_true]
  · simp only [hcon, Bool.false_eq_true, if_false]
    refine List.any_eq_true.mpr ⟨c, hc, ?_⟩
    rw [hclean]
    simp [includesStr_empty]

/-- C10 witness: with the degenerate reference list `["inc"]` (which cleans
to `""`), the arbitrary company `"Google"` is accepted. -/
theorem c10_degenerate_reference_witness :
    isH1BCompany [("inc")] ("Google") = true :=
  c10_degenerate_reference [("inc")] ("Google") ("inc") (by decide)
    (by decide) (by decide)

/-! ## C6 / C7 — Deduplicator idempotence and order-independence -/

/-- Keys already in the store survive the insert loop. -/
theorem insertJobsGo_store_mono (jobs : List ProcessedJob) :
    ∀ (store : Finset String) (ins dup : Nat) (h : String),
      h ∈ store → h ∈ (insertJobsGo store ins dup jobs).1 := by
  induction jobs with
  | nil => intro store ins dup h hh; exact hh
  | cons j rest ih =>
    intro store ins dup h hh
    by_cases hj : generateJobHash j ∈ store
    · simpa [insertJobsGo, hj] using ih store ins (dup + 1) h hh
    · simp only [insertJobsGo, hj, if_false]
      exact ih _ _ _ h (Finset.mem_insert_of_mem hh)

/-- After the insert loop, the fingerprint of every processed record of the
batch is present in the store. -/
theorem insertJobsGo_mem_hash (jobs : List ProcessedJob) :
    ∀ (store : Finset String) (ins dup : Nat) (j : ProcessedJob),
      j ∈ jobs → generateJobHash j ∈ (insertJobsGo store ins dup jobs).1 := by
  induction jobs with
  | nil => intro _ _ _ _ hj; cases hj
  | cons x rest ih =>
    intro store ins dup j hj
    rcases List.mem_cons.mp hj with rfl | hj
    · by_cases hx : generateJobHash j ∈ store
      · simpa [insertJobsGo, hx] using insertJobsGo_store_mono rest store ins (dup + 1) _ hx
      · simp only [insertJobsGo, hx, if_false]
        exact insertJobsGo_store_mono rest _ _ _ _ (Finset.mem_insert_self _ _)
    · by_cases hx : generateJobHash x ∈ store
      · simpa [insertJobsGo, hx] using ih store ins (dup + 1) j hj
      · simp only [insertJobsGo, hx, if_false]
        exact ih _ _ _ j hj

/-- When every fingerprint of the batch is already stored, the loop leaves
the store untouched, inserts nothing, and counts every record a duplicate. -/
theorem insertJobsGo_all_dup (jobs : List ProcessedJob) :
    ∀ (store : Finset String) (ins dup : Nat),
      (∀ j ∈ jobs, generateJobHash j ∈ store) →
      insertJobsGo store ins dup jobs = (store, ins, dup + jobs.length) := by
  induction jobs with
  | nil => intro store ins dup _; rfl
  | cons j rest ih =>
    intro store ins dup hall
    have hj : generateJobHash j ∈ store := hall j (List.mem_cons_self j rest)
    have hrest : ∀ x ∈ rest, generateJobHash x ∈ store :=
      fun x hx => hall x (List.mem_cons_of_mem j hx)
    simp only [insertJobsGo, hj, if_true, List.length_cons]
    rw [show dup + (rest.length + 1) = (dup + 1) + rest.length by omega]
    exact ih store ins (dup + 1) hrest

/-- C6: `insertJobs` is idempotent on a batch — replaying the very same
batch against the store state left by a first call inserts nothing and
reports every record of the batch as a duplicate. -/
theorem c6_insert_idempotent (store : Finset String) (jobs : List ProcessedJob) :
    insertJobs (insertJobs store jobs).1 jobs =
      ((insertJobs store jobs).1, 0, jobs.length) := by
  cases jobs with
  | nil => simp [insertJobs]
  | cons j rest =>
    have hne : (j :: rest).isEmpty = false := rfl
    simp only [insertJobs, hne, if_false]
    have hall : ∀ x ∈ j :: rest,
        generateJobHash x ∈ (insertJobsGo store 0 0 (j :: rest)).1 :=
      fun x hx => insertJobsGo_mem_hash (j :: rest) store 0 0 x hx
    simpa using insertJobsGo_all_dup (j :: rest) _ 0 0 hall

/-- The insert loop is invariant under permutation of the batch: the final
store, inserted count and duplicated count all agree. -/
theorem insertJobsGo_perm {l1 l2 : List ProcessedJob} (h : l1.Perm l2) :
    ∀ (store : Finset String) (ins dup : Nat),
      insertJobsGo store ins dup l1 = insertJobsGo store ins dup l2 := by
  induction h with
  | nil => intro _ _ _; rfl
  | cons x _ ih =>
    intro store ins dup
    by_cases hx : generateJobHash x ∈ store <;> simp [insertJobsGo, hx, ih]
  | swap x y l =>
    intro store ins dup
    by_cases hx : generateJobHash x ∈ store <;>
      by_cases hy : generateJobHash y ∈ store
    · simp [insertJobsGo, hx, hy]
    · simp [insertJobsGo, hx, hy, Finset.mem_insert_of_mem hx]
    · simp [insertJobsGo, hx, hy, Finset.mem_insert_of_mem hy]
    · by_cases hxy : generateJobHash x = generateJobHash y
      · simp [insertJobsGo, hx, hy, hxy]
      · have hxy' : generateJobHash y ≠ generateJobHash x := fun e => hxy e.symm
        simp [insertJobsGo, hx, hy, Finset.mem_insert, hxy, hxy',
          Finset.Insert.comm]
  | trans _ _ ih1 ih2 => intro store ins dup; rw [ih1, ih2]

/-- `insertJobs` itself is invariant under permutation of the batch. -/
theorem insertJobs_perm (store : Finset String) {l1 l2 : List ProcessedJob}
    (h : l1.Perm l2) : insertJobs store l1 = insertJobs store l2 := by
  unfold insertJobs
  have hemp : l1.isEmpty = l2.isEmpty := by
    have hl := h.length_eq
    cases l1 <;> cases l2 <;> simp_all
  rw [hemp]
  by_cases h2 : l2.isEmpty
  · simp [h2]
  · simp [h2, insertJobsGo_perm h]

/-- C7: the Deduplicator counts are order-independent — for every initial
store and every permutation of a batch, `insertJobs` reports the same
inserted count and the same duplicated count. -/
theorem c7_insert_order_independent (store : Finset String)
    (l1 l2 : List ProcessedJob) (h : l1.Perm l2) :
    (insertJobs store l1).2.1 = (insertJobs store l2).2.1 ∧
    (insertJobs store l1).2.2 = (insertJobs store l2).2.2 := by
  rw [insertJobs_perm store h]
  exact ⟨rfl, rfl⟩

/-- A concrete record used by the C7 witness. -/
def c7JobA : ProcessedJob :=
  { company_name := ("Acme"), job_title := ("Data Engineer")
    posting_time := ("3 days ago"), job_location := ("NYC")
    job_type := ("Full-time"), job_description := ("first")
    work_setting := ("Remote"), ats_apply_link := ("https://a.example")
    scraped_at := ("2024-01-01T00:00:00.000Z") }

/-- A second concrete record used by the C7 witness. -/
def c7JobB : ProcessedJob :=
  { company_name := ("Globex"), job_title := ("Analytics Engineer")
    posting_time := ("1 day ago"), job_location := ("SF")
    job_type := ("Contract"), job_description := ("second")
    work_setting := ("Onsite"), ats_apply_link := ("https://b.example")
    scraped_at := ("2024-01-02T00:00:00.000Z") }

/-- C7 witness: swapping a concrete two-record batch leaves both counts
unchanged. -/
theorem c7_insert_order_independent_witness :
    (insertJobs ∅ [c7JobA, c7JobB]).2.1 = (insertJobs ∅ [c7JobB, c7JobA]).2.1 ∧
    (insertJobs ∅ [c7JobA, c7JobB]).2.2 = (insertJobs ∅ [c7JobB, c7JobA]).2.2 :=
  c7_insert_order_independent ∅ [c7JobA, c7JobB] [c7JobB, c7JobA]
    (List.Perm.swap c7JobB c7JobA [])

/-! ## Pipeline lemmas -/

/-- Definitional unfolding of one iteration of the page loop, convenient for
rewriting at literal fuel values. -/
theorem processJobsGo_succ (companies : List String)
    (fetch : Nat → Except String Page) (now : String) (fuel idx : Nat)
    (stats : RunStats) (acc : List ProcessedJob) :
    processJobsGo companies fetch now (fuel + 1) idx stats acc =
      match fetchJobs fetch idx stats with
      | (Except.error e, stats1) => (Except.error e, stats1, [idx])
      | (Except.ok page, stats1) =>
        match page.jobs_results with
        | none => (Except.ok acc, stats1, [idx])
        | some [] => (Except.ok acc, stats1, [idx])
        | some (job :: rest) =>
          let stats2 :=
            { stats1 with jobsScraped := stats1.jobsScraped + (job :: rest).length }
          let r1 := processPage companies now stats2 acc (job :: rest)
          let r2 := processJobsGo companies fetch now fuel (idx + 10) r1.1 r1.2
          (r2.1, r2.2.1, idx :: r2.2.2) := rfl

/-- Closed form of the per-page item loop: `jobsFiltered` grows by the
number of matcher hits, and the hits' built records are appended in order. -/
theorem processPage_eq (companies : List String) (now : String) :
    ∀ (jobs : List RawJob) (stats : RunStats) (acc : List ProcessedJob),
      processPage companies now stats acc jobs =
        ({ stats with jobsFiltered := stats.jobsFiltered +
             jobs.countP (fun j => isH1BCompany companies j.company_name) },
         acc ++ (jobs.filter
             (fun j => isH1BCompany companies j.company_name)).map (buildJob now)) := by
  intro jobs
  induction jobs with
  | nil => intro stats acc; simp [processPage]
  | cons j rest ih =>
    intro stats acc
    by_cases hj : isH1BCompany companies j.company_name
    · simp only [processPage, hj, if_true, ih]
      simp [List.countP_cons, hj, List.filter_cons_of_pos, List.append_assoc,
        Prod.mk.injEq, RunStats.mk.injEq]
      all_goals omega
    · simp only [processPage, hj, if_false, ih]
      simp [List.countP_cons, hj, List.filter_cons_of_neg,
        Prod.mk.injEq, RunStats.mk.injEq]

/-- Whether one upstream call came back successfully. -/
def exceptOk : Except String Page → Bool
  | Except.ok _ => true
  | Except.error _ => false

/-- The api-call counter after the page loop equals its starting value plus
the number of *successful* calls among the attempted ones (the increment in
`fetchJobs` sits after the awaited request, so a failing call is skipped). -/
theorem processJobsGo_apiCalls (companies : List String)
    (fetch : Nat → Except String Page) (now : String) :
    ∀ (fuel idx : Nat) (stats : RunStats) (acc : List ProcessedJob),
      (processJobsGo companies fetch now fuel idx stats acc).2.1.apiCallsMade =
        stats.apiCallsMade +
          ((processJobsGo companies fetch now fuel idx stats acc).2.2.countP
            (fun i => exceptOk (fetch i))) := by
  intro fuel
  induction fuel with
  | zero => intro idx stats acc; simp [processJobsGo]
  | succ fuel ih =>
    intro idx stats acc
    cases hfetch : fetch idx with
    | error e =>
      simp [processJobsGo, fetchJobs, hfetch, exceptOk]
    | ok page =>
      cases hres : page.jobs_results with
      | none => simp [processJobsGo, fetchJobs, hfetch, hres, exceptOk]
      | some items =>
        cases items with
        | nil => simp [processJobsGo, fetchJobs, hfetch, hres, exceptOk]
        | cons j rest =>
          simp only [processJobsGo, fetchJobs, hfetch, hres, processPage_eq,
            List.countP_cons, exceptOk, ih]
          simp [hfetch, exceptOk]
          omega

/-! ## C2 — the api-call counter versus attempted calls -/

/-- A raw item used by pipeline counterexamples and witnesses. -/
def cexRawJob : RawJob :=
  { company_name := ("Acme"), title := ("Data Engineer"), location := ("NYC")
    description := ("pipeline work"), posted_at := ("today")
    schedule_type := (""), extensions := none, apply_options := none }

/-- A fetch whose first page succeeds with one item and whose second call
fails. -/
def c2Fetch : Nat → Except String Page :=
  fun i => if i == 0 then Except.ok ⟨some [cexRawJob]⟩
           else Except.error ("network down")

/-- C2 counterexample: under `c2Fetch` the run attempts two upstream calls
(trace `[0, 10]`) and is aborted by the second call's failure, yet
`apiCallsMade` is `1`, not `2` — the increment in `fetchJobs` happens only
after a successful response, so the counter does not equal the number of
calls attempted. -/
theorem c2_apiCalls_counterexample :
    (processJobs [] c2Fetch ("t") initStats).2.2 = [0, 10] ∧
    (processJobs [] c2Fetch ("t") initStats).2.1.apiCallsMade = 1 ∧
    (processJobs [] c2Fetch ("t") initStats).1 = Except.error ("network down") := by
  refine ⟨rfl, rfl, rfl⟩

/-- C2 (amended): `apiCallsMade` is incremented once per *successful*
`fetchPage` call; a call that raises a failure is attempted but not counted,
so after any run the counter equals the number of successful calls among the
attempted ones. -/
theorem c2_apiCalls_count_successes (companies : List String)
    (fetch : Nat → Except String Page) (now : String) (stats : RunStats) :
    (processJobs companies fetch now stats).2.1.apiCallsMade =
      stats.apiCallsMade +
        ((processJobs companies fetch now stats).2.2.countP
          (fun i => exceptOk (fetch i))) :=
  processJobsGo_apiCalls companies fetch now maxPages 0 stats []

/-! ## C4 — the two-page end-to-end scenario -/

/-- C4: for every fetch function whose page at offset 0 returns 10 items of
which exactly 3 match the company filter and whose page at offset 10 returns
0 items, the pipeline attempts exactly the calls `[0, 10]` (no third call),
succeeds, and reports `jobsScraped = 10`, `jobsFiltered = 3`,
`apiCallsMade = 2` with exactly 3 built records. -/
theorem c4_end_to_end (companies : List String)
    (fetch : Nat → Except String Page) (now : String) (items : List RawJob)
    (h0 : fetch 0 = Except.ok ⟨some items⟩)
    (hlen : items.length = 10)
    (hcount : items.countP (fun j => isH1BCompany companies j.company_name) = 3)
    (h10 : fetch 10 = Except.ok ⟨some []⟩) :
    ∃ l s, processJobs companies fetch now initStats = (Except.ok l, s, [0, 10]) ∧
      l.length = 3 ∧ s.jobsScraped = 10 ∧ s.jobsFiltered = 3 ∧
      s.apiCallsMade = 2 := by
  obtain ⟨j, rest, rfl⟩ : ∃ j rest, items = j :: rest := by
    cases items with
    | nil => simp at hlen
    | cons a b => exact ⟨a, b, rfl⟩
  have hpage2 : ∀ (st : RunStats) (acc : List ProcessedJob),
      processJobsGo companies fetch now 2 10 st acc =
        (Except.ok acc, { st with apiCallsMade := st.apiCallsMade + 1 }, [10]) := by
    intro st acc
    show processJobsGo companies fetch now (1 + 1) 10 st acc = _
    rw [processJobsGo_succ]
    simp only [fetchJobs, h10]
  have hrun : processJobs companies fetch now initStats =
      (Except.ok (((j :: rest).filter
          (fun x => isH1BCompany companies x.company_name)).map (buildJob now)),
       { jobsScraped := (j :: rest).length,
         jobsFiltered :=
           (j :: rest).countP (fun x => isH1BCompany companies x.company_name),
         jobsInserted := 0, jobsDuplicated := 0, apiCallsMade := 2,
         status := ("success"), errorMessage := none },
       [0, 10]) := by
    show processJobsGo companies fetch now (2 + 1) 0 initStats [] = _
    rw [processJobsGo_succ]
    simp only [fetchJobs, h0, processPage_eq, Nat.zero_add, hpage2]
    simp [initStats]
  refine ⟨_, _, hrun, ?_, hlen, hcount, rfl⟩
  simp [← List.countP_eq_length_filter, hcount]

/-- A raw item with a given company name, used by the C4 witness. -/
def c4Raw (name : String) : RawJob :=
  { company_name := name, title := ("Data Engineer"), location := ("NYC")
    description := ("build pipelines"), posted_at := ("today")
    schedule_type := (""), extensions := none, apply_options := none }

/-- Ten raw items of which exactly three are from the sponsor company. -/
def c4Items : List RawJob :=
  [c4Raw ("google"), c4Raw ("zzzz"), c4Raw ("zzzz"), c4Raw ("google"),
   c4Raw ("zzzz"), c4Raw ("zzzz"), c4Raw ("google"), c4Raw ("zzzz"),
   c4Raw ("zzzz"), c4Raw ("zzzz")]

/-- The two-page fetch of the C4 scenario. -/
def c4Fetch : Nat → Except String Page :=
  fun i => if i == 0 then Except.ok ⟨some c4Items⟩
           else if i == 10 then Except.ok ⟨some []⟩
           else Except.error ("no page")

/-- C4 witness: the scenario run on concrete data. -/
theorem c4_end_to_end_witness :
    ∃ l s, processJobs [("google")] c4Fetch ("t") initStats =
        (Except.ok l, s, [0, 10]) ∧
      l.length = 3 ∧ s.jobsScraped = 10 ∧ s.jobsFiltered = 3 ∧
      s.apiCallsMade = 2 :=
  c4_end_to_end [("google")] c4Fetch ("t") c4Items rfl rfl (by decide) rfl

/-! ## C1 — an empty reference set does not fail fast -/

/-- The empty-reference matcher rejects everything: with no loaded companies
neither the exact lookup nor the fuzzy scan can fire. -/
theorem isH1BCompany_nil (name : String) : isH1BCompany [] name = false := by
  unfold isH1BCompany
  split <;> simp

/-- With an empty reference list the page loop filters nothing:
`jobsFiltered` never moves, and a successful loop returns exactly the
accumulator it started from (no record is ever built). -/
theorem processJobsGo_nil_companies (fetch : Nat → Except String Page)
    (now : String) :
    ∀ (fuel idx : Nat) (stats : RunStats) (acc : List ProcessedJob),
      ((processJobsGo [] fetch now fuel idx stats acc).2.1.jobsFiltered =
        stats.jobsFiltered) ∧
      ((processJobsGo [] fetch now fuel idx stats acc).1 = Except.ok acc ∨
        ∃ e, (processJobsGo [] fetch now fuel idx stats acc).1 =
          Except.error e) := by
  intro fuel
  induction fuel with
  | zero =>
    intro idx stats acc
    exact ⟨rfl, Or.inl rfl⟩
  | succ fuel ih =>
    intro idx stats acc
    have hcount : (fun j : RawJob => isH1BCompany [] j.company_name) = fun _ => false := by
      funext j
      exact isH1BCompany_nil j.company_name
    cases hf : fetch idx with
    | error e =>
      refine ⟨?_, Or.inr ⟨e, ?_⟩⟩ <;>
        simp [processJobsGo_succ, fetchJobs, hf]
    | ok page =>
      cases hr : page.jobs_results with
      | none =>
        refine ⟨?_, Or.inl ?_⟩ <;> simp [processJobsGo_succ, fetchJobs, hf, hr]
      | some items =>
        cases items with
        | nil =>
          refine ⟨?_, Or.inl ?_⟩ <;>
            simp [processJobsGo_succ, fetchJobs, hf, hr]
        | cons j rest =>
          have hpage := processPage_eq [] now (j :: rest)
          rw [hcount] at hpage
          refine ⟨?_, ?_⟩
          · simp only [processJobsGo_succ, fetchJobs, hf, hr, hpage]
            simp [(ih (idx + 10) _ _).1]
          · simp only [processJobsGo_succ, fetchJobs, hf, hr, hpage]
            simpa using (ih (idx + 10) _ _).2

/-- A fetch whose first page has one posting and whose second page is empty,
used by the C1 counterexample and witness. -/
def c1Fetch : Nat → Except String Page :=
  fun i => if i == 0 then Except.ok ⟨some [cexRawJob]⟩
           else Except.ok ⟨some []⟩

/-- The statistics produced by running `c1Fetch` against the empty reference
set: one posting scraped and evaluated, nothing filtered, two calls made. -/
def c1Stats : RunStats :=
  { jobsScraped := 1, jobsFiltered := 0, jobsInserted := 0
    jobsDuplicated := 0, apiCallsMade := 2, status := ("success")
    errorMessage := none }

/-- C1 counterexample: when the reference load yields an empty set (empty
database and a readable CSV with zero usable rows), initialization succeeds
instead of failing, and the run then proceeds past the filter stage — it
fetches pages, scrapes one posting, evaluates it against the empty set and
finishes successfully with zero results, contradicting the claimed
fail-fast. -/
theorem c1_fail_fast_counterexample :
    initScraper [] (some []) = Except.ok [] ∧
    processJobs [] c1Fetch ("t") initStats = (Except.ok [], c1Stats, [0, 10]) ∧
    c1Stats.jobsScraped = 1 :=
  ⟨rfl, rfl, rfl⟩

/-- C1 (amended): when no usable reference name can be loaded, the run does
*not* fail fast — initialization resolves successfully with the empty set,
the pipeline proceeds, and because every match attempt against the empty
reference set is false, a completed run reports `jobsFiltered = 0` and an
empty result list. -/
theorem c1_empty_reference_proceeds (db : List String)
    (csv : Option (List CsvRow)) (fetch : Nat → Except String Page)
    (now : String) (l : List ProcessedJob) (s : RunStats) (att : List Nat)
    (hload : loadH1BCompanies db csv = Except.ok [])
    (hrun : processJobs [] fetch now initStats = (Except.ok l, s, att)) :
    initScraper db csv = Except.ok [] ∧ s.jobsFiltered = 0 ∧ l = [] := by
  have hnil := processJobsGo_nil_companies fetch now maxPages 0 initStats []
  have hrun' : processJobsGo [] fetch now maxPages 0 initStats [] =
      (Except.ok l, s, att) := hrun
  refine ⟨?_, ?_, ?_⟩
  · unfold initScraper
    rw [hload]
  · have h1 := hnil.1
    rw [hrun'] at h1
    exact h1
  · rcases hnil.2 with h2 | ⟨e, h2⟩ <;> rw [hrun'] at h2
    · exact Except.ok.inj h2
    · simp at h2

/-- C1 witness: the amended claim instantiated at the concrete empty-load
run driven by `c1Fetch`. -/
theorem c1_empty_reference_proceeds_witness :
    initScraper [] (some []) = Except.ok [] ∧ c1Stats.jobsFiltered = 0 ∧
      ([] : List ProcessedJob) = [] :=
  c1_empty_reference_proceeds [] (some []) c1Fetch ("t") [] c1Stats [0, 10]
    rfl rfl

/-! ## C3 — a failing error-log write masks the original failure -/

/-- A run logger whose write always fails. -/
def c3LogFail : RunStats → Except String Nat :=
  fun _ => Except.error ("log write failed")

/-- The statistics state after the aborted `c2Fetch` run: the second call's
failure is recorded and only the first (successful) call was counted. -/
def c3ErrStats : RunStats :=
  { jobsScraped := 1, jobsFiltered := 0, jobsInserted := 0
    jobsDuplicated := 0, apiCallsMade := 1, status := ("error")
    errorMessage := some ("network down") }

/-- C3 counterexample: the run fails with `network down`, the error-log
write fails with `log write failed`, and the caller of `scrapeJobs` sees the
*log* failure — the secondary failure replaces the original one,
contradicting the claim that the original failure always propagates. -/
theorem c3_log_masks_counterexample :
    (processJobs [] c2Fetch ("t") initStats).1 = Except.error ("network down") ∧
    (scrapeJobs [] c2Fetch ("t") ∅ c3LogFail).1 = Except.error ("log write failed") ∧
    ¬ (("log write failed" : String) = ("network down")) :=
  ⟨rfl, rfl, by decide⟩

/-- C3 (amended): when the pipeline fails with `e`, the failure seen by the
caller of `scrapeJobs` is `e` only if the run-level error-log write
succeeds; if that write itself fails, its failure is what propagates (the
`await` in the catch block is unprotected), masking the original. -/
theorem c3_log_failure_masks (companies : List String)
    (fetch : Nat → Except String Page) (now : String) (store : Finset String)
    (logRun : RunStats → Except String Nat) (e : String) (s : RunStats)
    (att : List Nat)
    (hrun : processJobs companies fetch now initStats =
      (Except.error e, s, att)) :
    (scrapeJobs companies fetch now store logRun).1 =
      (match logRun { s with status := ("error"), errorMessage := some e } with
       | Except.ok _ => Except.error e
       | Except.error e2 => Except.error e2) := by
  cases hlog : logRun { s with status := ("error"), errorMessage := some e } <;>
    (unfold scrapeJobs; rw [hrun]; simp [hlog])

/-- C3 witness: the amended claim instantiated at the concrete doubly
failing run, showing the caller receives the log-write failure. -/
theorem c3_log_failure_masks_witness :
    (scrapeJobs [] c2Fetch ("t") ∅ c3LogFail).1 =
      Except.error ("log write failed") := by
  have h := c3_log_failure_masks [] c2Fetch ("t") ∅ c3LogFail
    ("network down") c3ErrStats [0, 10] rfl
  simpa [c3LogFail] using h

/-! ## C8 — what the heavy cleaning does with punctuation -/

/-- Membership is preserved backwards through `dropWhile`. -/
theorem mem_of_mem_dropWhile {p : Char → Bool} {c : Char} :
    ∀ {l : List Char}, c ∈ l.dropWhile p → c ∈ l := by
  intro l
  induction l with
  | nil => intro h; exact h
  | cons d rest ih =>
    intro h
    by_cases hd : p d
    · simp only [List.dropWhile_cons, hd, if_true] at h
      exact List.mem_cons_of_mem d (ih h)
    · simp only [List.dropWhile_cons, hd, if_false] at h
      exact h

/-- Membership is preserved backwards through the JavaScript trim. -/
theorem mem_of_mem_jsTrimList {c : Char} {l : List Char}
    (h : c ∈ jsTrimList l) : c ∈ l := by
  unfold jsTrimList at h
  rw [List.mem_reverse] at h
  have h2 := mem_of_mem_dropWhile h
  rw [List.mem_reverse] at h2
  exact mem_of_mem_dropWhile h2

/-- Every character surviving whitespace collapsing was in the input or is
the replacement space. -/
theorem mem_collapseWsAux {c : Char} :
    ∀ (b : Bool) (l : List Char), c ∈ collapseWsAux b l → c ∈ l ∨ c = ' ' := by
  intro b l
  induction l generalizing b with
  | nil => intro h; cases h
  | cons d rest ih =>
    intro h
    by_cases hd : isJsSpace d
    · cases b with
      | true =>
        simp only [collapseWsAux, hd, if_true] at h
        rcases ih true h with h2 | h2
        · exact Or.inl (List.mem_cons_of_mem d h2)
        · exact Or.inr h2
      | false =>
        simp only [collapseWsAux, hd, if_true] at h
        rcases List.mem_cons.mp h with rfl | h2
        · exact Or.inr rfl
        · rcases ih true h2 with h3 | h3
          · exact Or.inl (List.mem_cons_of_mem d h3)
          · exact Or.inr h3
    · simp only [collapseWsAux, hd, if_false] at h
      rcases List.mem_cons.mp h with rfl | h2
      · exact Or.inl (List.mem_cons_self c rest)
      · rcases ih false h2 with h3 | h3
        · exact Or.inl (List.mem_cons_of_mem d h3)
        · exact Or.inr h3

/-- C8 counterexample: a period separating two word characters is *not*
turned into a separating space — `cleanCompanyName` deletes it and fuses the
surrounding tokens into one. -/
theorem c8_punctuation_counterexample :
    cleanCompanyName ("foo.bar") = ("foobar") ∧
    ¬ cleanCompanyName ("foo.bar") = ("foo bar") := by
  refine ⟨by decide, by decide⟩

/-- C8 (amended): the heavy cleaning removes the legal-suffix vocabulary as
whole regex words and then *deletes* internal commas and periods outright
(so two word characters separated by punctuation are joined into a single
token), collapses repeated whitespace into single spaces, and trims: no
comma or period ever survives into the cleaned name, `"acme, inc."` cleans
to `"acme"`, and `"foo.bar"` cleans to the single token `"foobar"`. -/
theorem c8_cleaning_deletes_punctuation :
    (∀ name : String,
      ((cleanCompanyName name).data.all (fun c => !(c == ',' || c == '.'))) = true) ∧
    cleanCompanyName ("acme, inc.") = ("acme") ∧
    cleanCompanyName ("foo.bar") = ("foobar") := by
  refine ⟨?_, by decide, by decide⟩
  intro name
  rw [List.all_eq_true]
  intro c hc
  have hc' : c ∈ jsTrimList
      (collapseWsAux false (removePunct (removeSuffixes name.data))) := hc
  have h2 := mem_of_mem_jsTrimList hc'
  rcases mem_collapseWsAux false _ h2 with h3 | h3
  · have h4 := List.mem_filter.mp h3
    exact h4.2
  · subst h3
    decide

end JobScraper
